import Mathlib

/-!
Verification development for the mcp-registry server.

The Python sources under src/mcp_registry_server are shallowly embedded:
Python dicts become association lists processed in insertion order, Python
strings become Lean Strings, fallible operations return Except, and the
stateful registry operations become explicit state-passing functions.
Timestamps and the raw_metadata debugging blob are omitted from the entry
model: no property below depends on them.
-/

namespace MCPRegistry

/-- Python dict with string keys, as an association list in insertion order. -/
abbrev Dict (α : Type) := List (String × α)

/-- Python dict read access d.get(k): the first binding for k, if any. -/
def dictGet {α : Type} : Dict α → String → Option α
  | [], _ => none
  | (k', v) :: rest, k => if k' = k then some v else dictGet rest k

/-- Python dict write d[k] = v: replace the binding in place, else append. -/
def dictSet {α : Type} : Dict α → String → α → Dict α
  | [], k, v => [(k, v)]
  | (k', v') :: rest, k, v =>
      if k' = k then (k, v) :: rest else (k', v') :: dictSet rest k v

/-- Python d.update(other): assign each binding of other into d in order. -/
def dictUpdate {α : Type} (d other : Dict α) : Dict α :=
  other.foldl (fun acc kv => dictSet acc kv.1 kv.2) d

/-- Python d.keys() in insertion order. -/
def dictKeys {α : Type} (d : Dict α) : List String :=
  d.map Prod.fst

theorem dictGet_dictSet_self {α : Type} (d : Dict α) (k : String) (v : α) :
    dictGet (dictSet d k v) k = some v := by
  induction d with
  | nil => simp [dictSet, dictGet]
  | cons kv rest ih =>
      by_cases h : kv.1 = k
      · simp [dictSet, dictGet, h]
      · simpa [dictSet, dictGet, h] using ih

theorem dictGet_dictSet_self_of_eq {α : Type} (d : Dict α) (k k' : String) (v : α)
    (h : k = k') : dictGet (dictSet d k v) k' = some v := by
  subst h
  exact dictGet_dictSet_self d k v

theorem dictGet_dictSet_ne {α : Type} (d : Dict α) (k k' : String) (v : α)
    (h : k ≠ k') : dictGet (dictSet d k v) k' = dictGet d k' := by
  induction d with
  | nil => simp [dictSet, dictGet, h]
  | cons kv rest ih =>
      by_cases hk : kv.1 = k
      · simp [dictSet, dictGet, hk, h]
      · by_cases hk' : kv.1 = k'
        · simp [dictSet, dictGet, hk, hk', Ne.symm h]
        · simpa [dictSet, dictGet, hk, hk'] using ih

theorem dictGet_dictUpdate_notMem {α : Type} (d other : Dict α) (k : String)
    (h : k ∉ dictKeys other) : dictGet (dictUpdate d other) k = dictGet d k := by
  induction other generalizing d with
  | nil => rfl
  | cons kv rest ih =>
      have h1 : kv.1 ≠ k := by
        intro he; exact h (by simp [dictKeys, he])
      have h2 : k ∉ dictKeys rest := by
        intro hmem; exact h (by simp [dictKeys] at hmem ⊢; exact Or.inr hmem)
      calc dictGet (dictUpdate d (kv :: rest)) k
      _ = dictGet (dictUpdate (dictSet d kv.1 kv.2) rest) k := rfl
      _ = dictGet (dictSet d kv.1 kv.2) k := ih _ h2
      _ = dictGet d k := dictGet_dictSet_ne _ _ _ _ h1

theorem dictGet_dictUpdate_mem {α : Type} (d other : Dict α) (k : String)
    (hnd : (dictKeys other).Nodup) (h : k ∈ dictKeys other) :
    dictGet (dictUpdate d other) k = dictGet other k := by
  induction other generalizing d with
  | nil => simp [dictKeys] at h
  | cons kv rest ih =>
      simp only [dictKeys, List.map_cons, List.nodup_cons] at hnd
      by_cases hk : kv.1 = k
      · have hnot : k ∉ dictKeys rest := by
          intro hmem; exact hnd.1 (hk ▸ hmem)
        calc dictGet (dictUpdate d (kv :: rest)) k
        _ = dictGet (dictUpdate (dictSet d kv.1 kv.2) rest) k := rfl
        _ = dictGet (dictSet d kv.1 kv.2) k := dictGet_dictUpdate_notMem _ _ _ hnot
        _ = some kv.2 := by rw [hk]; exact dictGet_dictSet_self _ _ _
        _ = dictGet (kv :: rest) k := by simp [dictGet, hk]
      · have hmem : k ∈ dictKeys rest := by
          simp [dictKeys] at h
          rcases h with h | h
          · exact absurd h.symm hk
          · simpa [dictKeys] using h
        calc dictGet (dictUpdate d (kv :: rest)) k
        _ = dictGet (dictUpdate (dictSet d kv.1 kv.2) rest) k := rfl
        _ = dictGet rest k := ih _ hnd.2 hmem
        _ = dictGet (kv :: rest) k := by simp [dictGet, hk]

/-- Helper for Python str.split(sep): accumulate the current chunk (reversed). -/
def splitAux (sep : Char) : List Char → List Char → List (List Char)
  | [], acc => [acc.reverse]
  | c :: cs, acc =>
      if c = sep then acc.reverse :: splitAux sep cs [] else splitAux sep cs (c :: acc)

/-- Python s.split(sep) for a single-character separator: keeps empty chunks,
and yields one empty chunk on the empty string, as Python does with an
explicit separator. -/
def pySplit (s : String) (sep : Char) : List String :=
  (splitAux sep s.data []).map fun cs => String.mk cs

/-- Python s.startswith(pre). -/
def strStartsWith (s pre : String) : Bool :=
  pre.data.isPrefixOf s.data

/-- Python s.upper() restricted to ASCII, which covers every key and
allowlist entry the embedded code compares. -/
def pyUpper (s : String) : String :=
  String.mk (s.data.map Char.toUpper)

/-- Python s.replace(a, b) for single-character arguments. -/
def pyReplaceChar (s : String) (a b : Char) : String :=
  String.mk (s.data.map (fun c => if c = a then b else c))

/-- Python sep.join(parts). -/
def joinWith (sep : String) : List String → String
  | [] => ""
  | [s] => s
  | s :: rest => s ++ sep ++ joinWith sep rest

/-- Python entry_id.split("/")[-1]: the tail component of an id. -/
def pyLastComponent (s : String) : String :=
  (pySplit s '/').getLastD ""

/-- The character class of the spec's namespace pattern [A-Za-z_][A-Za-z0-9_]*. -/
def isIdentStartChar (c : Char) : Bool :=
  (('A' ≤ c && c ≤ 'Z') || ('a' ≤ c && c ≤ 'z') || c = '_')

def isIdentTailChar (c : Char) : Bool :=
  isIdentStartChar c || ('0' ≤ c && c ≤ '9')

/-- Whether a namespace string matches [A-Za-z_][A-Za-z0-9_]*. -/
def matchesNamespacePattern (s : String) : Bool :=
  match s.data with
  | [] => false
  | c :: cs => isIdentStartChar c && cs.all isIdentTailChar

theorem dictGet_mem {α : Type} (d : Dict α) (k : String) (v : α)
    (h : dictGet d k = some v) : (k, v) ∈ d := by
  induction d with
  | nil => simp [dictGet] at h
  | cons kv rest ih =>
      obtain ⟨k1, v1⟩ := kv
      by_cases hk : k1 = k
      · subst hk
        simp [dictGet] at h
        subst h
        exact List.mem_cons_self _ _
      · simp [dictGet, hk] at h
        exact List.mem_cons_of_mem _ (ih h)

/-- The SourceType enum exactly as declared in models.py: it has the four
members DOCKER, MCPSERVERS, AWESOME, CUSTOM and no others. -/
inductive SourceType
  | docker
  | mcpservers
  | awesome
  | custom
deriving DecidableEq, Repr

/-- The LaunchMethod enum of models.py. -/
inductive LaunchMethod
  | podman
  | stdioProxy
  | remoteHttp
  | unknown
deriving DecidableEq, Repr

/-- RegistryEntry from models.py. The two timestamp fields and the
raw_metadata / documentation / usage_example strings are omitted: no claim
below reads them. -/
structure RegistryEntry where
  id : String
  name : String
  description : String
  source : SourceType
  repo_url : Option String := none
  container_image : Option String := none
  categories : List String := []
  tags : List String := []
  official : Bool := false
  featured : Bool := false
  requires_api_key : Bool := false
  tools : List String := []
  launch_method : LaunchMethod := .unknown
deriving DecidableEq, Repr

/-- ActiveMount from models.py, with exactly the fields the model declares:
entry_id, name, the tool-namespace field (called `prefix` in the source and
rendered `nsp` here), container_id, pid, environment, tools. The model
declares no resources or prompts field. The mounted_at timestamp is omitted. -/
structure ActiveMount where
  entry_id : String
  name : String
  nsp : String
  container_id : Option String := none
  pid : Option Int := none
  environment : Dict String := []
  tools : List String := []
deriving DecidableEq, Repr

/-- Pydantic construction of an ActiveMount as performed by registry_add and
registry_launch_stdio in server.py: the call sites pass resources and prompts
keyword arguments, but models.py declares no such fields and leaves the
pydantic extra policy at its default (ignore), so both arguments are
discarded during validation. -/
def mkActiveMount (entry_id name nsp : String) (container_id : Option String)
    (pid : Option Int) (environment : Dict String)
    (tools resources prompts : List String) : ActiveMount :=
  { entry_id := entry_id, name := name, nsp := nsp, container_id := container_id,
    pid := pid, environment := environment, tools := tools }

/-- Python attribute access on an ActiveMount for list-of-string valued
attributes, as registry_active performs with mount.tools, mount.resources and
mount.prompts: reading an attribute the pydantic model does not declare
raises AttributeError. -/
def activeMountAttr (m : ActiveMount) (attr : String) : Except String (List String) :=
  match attr with
  | "tools" => .ok m.tools
  | a => .error ("AttributeError: " ++ a)

/-- Python enum attribute access SourceType.NAME in a source tree whose
SourceType enum declares only the four members of models.py: any other name
raises AttributeError. -/
def sourceTypeAttr : String → Except String SourceType
  | "DOCKER" => .ok .docker
  | "MCPSERVERS" => .ok .mcpservers
  | "AWESOME" => .ok .awesome
  | "CUSTOM" => .ok .custom
  | s => .error ("AttributeError: " ++ s)

/-- Registry._calculate_popularity_score from registry.py. Every numeric
contribution in the source is an integer-valued float, so the running score
is carried as an Int, exactly. The source evaluates SourceType.MCP_OFFICIAL
after the category bonus; that attribute access is embedded through
sourceTypeAttr, because models.py declares no MCP_OFFICIAL member. -/
def calculate_popularity_score (e : RegistryEntry) : Except String Int := do
  let s0 : Int := 0
  let s1 : Int := if e.official then s0 + 20 else s0
  let s2 : Int := if e.featured then s1 + 10 else s1
  let s3 : Int := s2 + 2 * (min e.categories.length 3 : Nat)
  let mcpOfficial ← sourceTypeAttr "MCP_OFFICIAL"
  let s4 : Int :=
    if e.source = mcpOfficial then s3 + 15
    else if e.source = SourceType.docker then s3 + 5
    else s3
  let s5 : Int := if e.container_image.isSome then s4 + 3 else s4
  return s5

/-- The table of active mounts, keyed by entry_id as in Registry._active_mounts. -/
abbrev MountTable := Dict ActiveMount

/-- Registry.update_mount_environment from registry.py: look up the mount,
merge the given variables into its environment with dict.update, and return
the mount; None and no change when the entry has no active mount. -/
def update_mount_environment (tbl : MountTable) (entry_id : String)
    (environment : Dict String) : Option ActiveMount × MountTable :=
  match dictGet tbl entry_id with
  | none => (none, tbl)
  | some m =>
      let m' := { m with environment := dictUpdate m.environment environment }
      (some m', dictSet tbl entry_id m')

/-- Registry.bulk_add_entries from registry.py: assign each entry into the
store under its id, in list order, and return the length of the input list. -/
def bulk_add_entries (entries : List RegistryEntry) (store : Dict RegistryEntry) :
    Nat × Dict RegistryEntry :=
  (entries.length, entries.foldl (fun acc e => dictSet acc e.id e) store)

/-- SourceRefreshStatus from models.py, with timestamps as abstract ticks. -/
structure SourceRefreshStatus where
  source_type : SourceType
  last_refresh : Option Nat := none
  last_attempt : Option Nat := none
  entry_count : Nat := 0
  status : String := "unknown"
  error_message : Option String := none
deriving DecidableEq, Repr

/-- The body of one source refresh in tasks.py (_refresh_mcpservers and
_refresh_docker_registry share this shape): record the attempt, then either
bulk-add the scraped entries and store the returned count as entry_count with
status ok, or record the error with status error and the store untouched. -/
def refresh_source_step (now : Nat) (src : SourceType)
    (scrape : Except String (List RegistryEntry)) (store : Dict RegistryEntry) :
    SourceRefreshStatus × Dict RegistryEntry :=
  match scrape with
  | .ok entries =>
      let (count, store') := bulk_add_entries entries store
      ({ source_type := src, last_refresh := some now, last_attempt := some now,
         entry_count := count, status := "ok", error_message := none }, store')
  | .error e =>
      ({ source_type := src, last_refresh := none, last_attempt := some now,
         entry_count := 0, status := "error", error_message := some e }, store)

/-- The last entry of the list carrying the given id, if any: the value
repeated dict assignment leaves in the store. -/
def lastWithId : List RegistryEntry → String → Option RegistryEntry
  | [], _ => none
  | e :: rest, i =>
      match lastWithId rest i with
      | some e' => some e'
      | none => if e.id = i then some e else none

/-- The allowed environment-key patterns of ConfigSetRequest.validate_env_keys
in models.py, in source order. -/
def allowedEnvPatterns : List String :=
  ["API_KEY", "API_TOKEN", "AUTH_", "DATABASE_", "DB_", "GITHUB_", "OPENAI_",
   "ANTHROPIC_", "AWS_", "AZURE_", "GCP_", "SLACK_", "DISCORD_", "NOTION_", "MCP_"]

/-- The per-key check of validate_env_keys: key.upper() starts with one of
the allowlisted patterns. -/
def envKeyAllowed (key : String) : Bool :=
  allowedEnvPatterns.any (fun p => strStartsWith (pyUpper key) p)

/-- ConfigSetRequest.validate_env_keys from models.py: raise on the first
offending key in insertion order, else return the dict unchanged. -/
def validate_env_keys (env : Dict String) : Except String (Dict String) :=
  match env.find? (fun kv => !envKeyAllowed kv.1) with
  | some kv => .error ("Environment variable " ++ kv.1 ++ " not in allowlist")
  | none => .ok env

/-- Result surface of the registry_config_set tool in server.py. -/
inductive ConfigSetResult
  | invalidConfig (msg : String)
  | notActive (entry_id : String)
  | updateFailed (entry_id : String)
  | updated (name : String) (keys : List String)
deriving DecidableEq, Repr

/-- registry_config_set from server.py: construct a ConfigSetRequest (whose
validator checks every environment key against the allowlist), then look up
the active mount, then merge the variables through
Registry.update_mount_environment. -/
def registry_config_set (tbl : MountTable) (entry_id : String)
    (environment : Dict String) : ConfigSetResult × MountTable :=
  match validate_env_keys environment with
  | .error msg => (.invalidConfig msg, tbl)
  | .ok env =>
      match dictGet tbl entry_id with
      | none => (.notActive entry_id, tbl)
      | some m =>
          match update_mount_environment tbl entry_id env with
          | (none, tbl') => (.updateFailed entry_id, tbl')
          | (some _, tbl') => (.updated m.name (dictKeys environment), tbl')

/-- The sleep chosen by one iteration of _periodic_refresh_loop in tasks.py:
the normal path sleeps min(refresh_interval_seconds / 4, 3600) seconds, the
exception path sleeps 60 seconds before retrying. Seconds are carried as
rationals; every division the loop performs is exact. -/
def periodic_loop_sleep (refresh_interval_seconds : ℚ) (errored : Bool) : ℚ :=
  if errored then 60 else min (refresh_interval_seconds / 4) 3600

/-- JSON values as they appear in tool-call arguments, schema defaults and
dispatched payloads. -/
inductive JVal
  | nullV
  | boolV (b : Bool)
  | intV (n : Int)
  | strV (s : String)
deriving DecidableEq, Repr

/-- The type field of a JSON-Schema property: a single type name or an array
of type names. -/
inductive SchemaType
  | tyStr (s : String)
  | tyList (l : List String)
deriving DecidableEq, Repr

/-- Python type annotations produced by the schema converter. -/
inductive PyType
  | pyStr
  | pyFloat
  | pyInt
  | pyBool
  | pyDict
  | pyList
  | pyNone
  | pyAny
  | pyOptional (t : PyType)
deriving DecidableEq, Repr

/-- The type_mapping dict of json_type_to_python_type in schema_converter.py. -/
def typeMapping : String → Option PyType
  | "string" => some .pyStr
  | "number" => some .pyFloat
  | "integer" => some .pyInt
  | "boolean" => some .pyBool
  | "object" => some .pyDict
  | "array" => some .pyList
  | "null" => some .pyNone
  | _ => none

/-- json_type_to_python_type from schema_converter.py: a type array picks the
first non-null member (optional when null is present, NoneType when nothing
else remains); a single name maps through the table, unknown names to Any. -/
def json_type_to_python_type : SchemaType → PyType
  | .tyList ts =>
      match ts.filter (fun t => t ≠ "null") with
      | [] => .pyNone
      | t :: _ =>
          let base := (typeMapping t).getD .pyAny
          if ts.contains "null" then .pyOptional base else base
  | .tyStr t => (typeMapping t).getD .pyAny

/-- Whether the converter regards a type as already optional: NoneType
itself, or a union containing None. -/
def isOptionalType : PyType → Bool
  | .pyNone => true
  | .pyOptional _ => true
  | _ => false

/-- One property of a JSON-Schema object, as read by parse_schema_property:
the type entry (absent means the converter assumes string), whether a default
entry is present and its value (some JVal.nullV is an explicit null default,
none means no default key), and the optional description. -/
structure PropSchema where
  typeName : Option SchemaType := none
  defaultVal : Option JVal := none
  description : Option String := none
deriving DecidableEq, Repr

/-- The default slot of a generated parameter: Ellipsis for required
parameters, else a value. -/
inductive ParamDefault
  | ellipsis
  | val (v : JVal)
deriving DecidableEq, Repr

/-- parse_schema_property from schema_converter.py. Required properties get
the Ellipsis marker; otherwise a present schema default is used, and a
property with no default becomes optional with default None. -/
def parse_schema_property (propName : String) (ps : PropSchema) (required : Bool) :
    String × PyType × ParamDefault × String :=
  let jt := ps.typeName.getD (.tyStr "string")
  let ty := json_type_to_python_type jt
  let desc := ps.description.getD ""
  if required then (propName, ty, .ellipsis, desc)
  else
    match ps.defaultVal with
    | some v => (propName, ty, .val v, desc)
    | none =>
        let ty' := if isOptionalType ty then ty else .pyOptional ty
        (propName, ty', .val JVal.nullV, desc)

/-- An inputSchema object: its properties map in iteration order and its
required list. -/
structure InputSchema where
  properties : Dict PropSchema := []
  required : List String := []
deriving DecidableEq, Repr

/-- The raw default create_dynamic_tool_function records for one property:
None (nullV) when the parsed default slot is the Ellipsis marker of a
required parameter, else the parsed default value. -/
def rawDefaultOf (schema : InputSchema) (p : String) (ps : PropSchema) : JVal :=
  match (parse_schema_property p ps (schema.required.contains p)).2.2.1 with
  | .ellipsis => JVal.nullV
  | .val v => v

/-- The raw_defaults map built by create_dynamic_tool_function, one entry
per property in iteration order. -/
def raw_defaults (schema : InputSchema) : Dict JVal :=
  schema.properties.map (fun kv => (kv.1, rawDefaultOf schema kv.1 kv.2))

/-- The clean_kwargs payload the generated dynamic_tool dispatches: first
every raw default that is not None, in property order, then the provided
keyword arguments assigned over them. -/
def dynamic_tool_payload (schema : InputSchema) (kwargs : Dict JVal) : Dict JVal :=
  let base := (raw_defaults schema).foldl
    (fun acc kv => if kv.2 ≠ JVal.nullV then dictSet acc kv.1 kv.2 else acc) []
  dictUpdate base kwargs

/-- The generated callable of create_dynamic_tool_function, by its observable
data: the function name (tool name with hyphens replaced), the docstring, the
original tool name the closure passes to the executor on every call, and the
schema driving payload construction. -/
structure DynamicTool where
  funcName : String
  doc : String
  dispatchName : String
  schema : InputSchema
deriving DecidableEq, Repr

/-- create_dynamic_tool_function from schema_converter.py, restricted to the
data the generated function closes over. -/
def create_dynamic_tool_function (tool_name tool_description : String)
    (input_schema : InputSchema) : DynamicTool :=
  { funcName := pyReplaceChar tool_name '-' '_',
    doc := if tool_description ≠ "" then tool_description else "Tool: " ++ tool_name,
    dispatchName := tool_name,
    schema := input_schema }

/-- A remote tool definition: name, description and inputSchema entries, each
possibly absent. -/
structure ToolDef where
  nameVal : Option String := none
  descriptionVal : Option String := none
  inputSchemaVal : Option InputSchema := none
deriving DecidableEq, Repr

/-- convert_tool_to_function from schema_converter.py: read the tool name
(default unknown), build the full tool name by concatenating mcp_, the
mount namespace, an underscore and the tool name as-is, and generate the
dynamic callable from the unmodified tool name. -/
def convert_tool_to_function (td : ToolDef) (ns : String) : String × DynamicTool :=
  let tool_name := td.nameVal.getD "unknown"
  let tool_description := td.descriptionVal.getD ""
  let input_schema := td.inputSchemaVal.getD {}
  let full_tool_name := "mcp_" ++ ns ++ "_" ++ tool_name
  (full_tool_name, create_dynamic_tool_function tool_name tool_description input_schema)

/-- Modelled from the spec: mcp_client.py is not part of the sources given,
only its callers are. An RPC client is observed through call_tool(name,
args), which either returns the stringified content of the child's reply or
raises; the spec fixes nothing more that registry_exec depends on. -/
structure RpcClient where
  callTool : String → Dict JVal → Except String String

/-- Modelled from the spec: the MCPClientManager of the absent mcp_client.py,
observed as its mapping from the handle id a mount stores (its container_id)
to the bound RPC client. -/
structure ExecEnv where
  clients : Dict RpcClient

/-- Result surface of the registry_exec tool in server.py. -/
inductive ExecResult
  | invalidName (name : String)
  | noMountForNs (ns : String)
  | clientMissing (name : String)
  | success (toolName result : String)
  | failed (toolName err : String)
deriving DecidableEq, Repr

/-- One recorded RPC invocation: which client handle was used, the tool name
passed to call_tool, and the arguments. -/
abbrev CallRecord := String × String × Dict JVal

/-- registry_exec from server.py: require the mcp_ marker and at least three
underscore-separated parts, take part 1 as the namespace and rejoin the rest
as the tool name, find the first active mount whose namespace field matches,
fetch the client registered under that mount's container_id, and invoke
call_tool. The second component records every call_tool invocation made. -/
def registry_exec (env : ExecEnv) (tbl : MountTable) (tool_name : String)
    (arguments : Dict JVal) : ExecResult × List CallRecord :=
  if strStartsWith tool_name "mcp_" = false then (.invalidName tool_name, [])
  else
    let parts := pySplit tool_name '_'
    if parts.length < 3 then (.invalidName tool_name, [])
    else
      let ns := parts.getD 1 ""
      let actual := joinWith "_" (parts.drop 2)
      match (tbl.map Prod.snd).find? (fun m => m.nsp = ns) with
      | none => (.noMountForNs ns, [])
      | some m =>
          match m.container_id.bind
              (fun cid => (dictGet env.clients cid).map (fun c => (cid, c))) with
          | none => (.clientMissing m.name, [])
          | some (cid, client) =>
              match client.callTool actual arguments with
              | .ok r => (.success tool_name r, [(cid, actual, arguments)])
              | .error e => (.failed tool_name e, [(cid, actual, arguments)])

/-- The collaborators of one registry_add activation attempt, as oracles:
whether podman pull succeeds, whether run_interactive_container yields a
container id with a live process, whether the MCP handshake and the three
discovery calls complete within their timeouts (the client itself is
modelled from the spec, mcp_client.py being absent from the sources), and
what the child reports. -/
structure ActivationEnv where
  pullOk : Bool
  runResult : Option String
  handshakeOk : Bool
  toolDefs : List ToolDef
  resourceUris : List String
  promptNames : List String

/-- Result surface of the registry_add tool in server.py. -/
inductive AddResult
  | alreadyActive (name ns : String)
  | notFound (entry_id : String)
  | unsupportedLaunch (entry_id : String)
  | pullFailed (image : String)
  | startFailed (name : String)
  | handshakeFailed (name : String)
  | activated (name ns : String)
deriving DecidableEq, Repr

/-- Whether an AddResult is the success message of a completed activation. -/
def AddResult.isActivated : AddResult → Bool
  | .activated _ _ => true
  | _ => false

/-- registry_add from server.py: return already-active before anything else
when the entry_id has an active mount; resolve the entry; derive the
namespace from the id tail when the given one is absent or empty; for a
podman entry with a (truthy) container image, pull, start the interactive
container, run handshake and discovery, record the ActiveMount (passing the
discovered resource and prompt lists to its constructor), and report
success; other launch methods are unsupported. The Nat component counts the
child processes spawned during the call. -/
def registry_add (env : ActivationEnv) (entries : Dict RegistryEntry)
    (tbl : MountTable) (entry_id : String) (nsArg : Option String) :
    AddResult × MountTable × Nat :=
  match dictGet tbl entry_id with
  | some m => (.alreadyActive m.name m.nsp, tbl, 0)
  | none =>
      match dictGet entries entry_id with
      | none => (.notFound entry_id, tbl, 0)
      | some entry =>
          let ns :=
            match nsArg with
            | some p => if p = "" then pyReplaceChar (pyLastComponent entry_id) '-' '_' else p
            | none => pyReplaceChar (pyLastComponent entry_id) '-' '_'
          match entry.launch_method, entry.container_image with
          | .podman, some img =>
              if img = "" then (.unsupportedLaunch entry_id, tbl, 0)
              else if env.pullOk = false then (.pullFailed img, tbl, 0)
              else
                match env.runResult with
                | none => (.startFailed entry.name, tbl, 0)
                | some cid =>
                    if env.handshakeOk = false then (.handshakeFailed entry.name, tbl, 1)
                    else
                      let toolNames := env.toolDefs.map (fun t => t.nameVal.getD "unknown")
                      let mount := mkActiveMount entry.id entry.name ns (some cid)
                        none [] toolNames env.resourceUris env.promptNames
                      (.activated entry.name ns, dictSet tbl entry.id mount, 1)
          | _, _ => (.unsupportedLaunch entry_id, tbl, 0)

/-- Membership in the key list forces a successful dict read. -/
theorem dictGet_isSome_of_mem_keys {α : Type} (d : Dict α) (k : String)
    (h : k ∈ dictKeys d) : (dictGet d k).isSome = true := by
  induction d with
  | nil => simp [dictKeys] at h
  | cons kv rest ih =>
      by_cases hk : kv.1 = k
      · simp [dictGet, hk]
      · simp [dictKeys] at h
        rcases h with h | h
        · exact absurd h.symm hk
        · simpa [dictGet, hk] using ih (by simpa [dictKeys] using h)

/-- Repeated keyed assignment leaves the last entry with each id. -/
theorem dictGet_foldl_set_by_id (entries : List RegistryEntry)
    (store : Dict RegistryEntry) (i : String) :
    dictGet (entries.foldl (fun acc e => dictSet acc e.id e) store) i =
      match lastWithId entries i with
      | some e => some e
      | none => dictGet store i := by
  induction entries generalizing store with
  | nil => rfl
  | cons e rest ih =>
      show dictGet (rest.foldl _ (dictSet store e.id e)) i = _
      rw [ih]
      cases hrest : lastWithId rest i with
      | some e' => simp [lastWithId, hrest]
      | none =>
          by_cases hid : e.id = i
          · subst hid
            simp [lastWithId, hrest, dictGet_dictSet_self]
          · simp [lastWithId, hrest, hid, dictGet_dictSet_ne _ _ _ _ hid]

/-- The test entry docker/postgres of tests/test_registry.py, the input of
test_popularity_score_calculation. -/
def postgresEntry : RegistryEntry :=
  { id := "docker/postgres", name := "PostgreSQL MCP Server",
    description := "Connect to PostgreSQL databases and run queries",
    source := .docker,
    repo_url := some "https://github.com/docker/mcp-postgres",
    container_image := some "docker.io/mcp/postgres",
    categories := ["Database"], tags := ["sql", "postgres", "database"],
    official := true, featured := true, requires_api_key := false,
    launch_method := .podman }

/-- C1: the claim states that the popularity score of every entry equals
20·official + 10·featured + 2·min(categories,3) + 15 for source mcp_official
+ 5 for source docker + 3 for a container image, with the stated strict
monotonicities. The code cannot compute any score: models.py declares no
MCP_OFFICIAL member on SourceType, so the comparison in
_calculate_popularity_score raises AttributeError for every entry — in
particular on the docker/postgres entry that the repository's own
test_popularity_score_calculation feeds it. -/
theorem popularity_score_raises_attribute_error :
    calculate_popularity_score postgresEntry = .error "AttributeError: MCP_OFFICIAL"
    ∧ ∀ e : RegistryEntry,
        calculate_popularity_score e = .error "AttributeError: MCP_OFFICIAL" := by
  constructor
  · rfl
  · intro e
    rfl

/-- C3: the claim states each loop iteration waits max(1 hour,
refresh_interval/4). tasks.py line 138 computes min(refresh_interval/4,
3600): at the default 24-hour interval (86400 s) the loop sleeps 3600 s, one
hour, not the six hours the claimed max form gives. -/
theorem periodic_sleep_min_not_max_cex :
    periodic_loop_sleep 86400 false = 3600
    ∧ max (3600 : ℚ) (86400 / 4) = 21600
    ∧ (3600 : ℚ) ≠ 21600 := by
  refine ⟨?_, ?_, by norm_num⟩
  · show min (86400 / 4 : ℚ) 3600 = 3600
    norm_num
  · norm_num

/-- C3 (amended): each normal iteration of a source's periodic refresh loop
waits min(refresh_interval/4, 1 hour) between staleness checks, so for every
interval of at least 4 hours — the default 24-hour interval included — the
wait is exactly one hour. -/
theorem periodic_sleep_caps_at_one_hour (r : ℚ) (h : 14400 ≤ r) :
    periodic_loop_sleep r false = 3600
    ∧ periodic_loop_sleep r false = min (r / 4) 3600 := by
  constructor
  · show min (r / 4) 3600 = 3600
    rw [min_eq_right]
    linarith
  · rfl

/-- Witness for the amended C3 statement at the default 24-hour interval. -/
theorem periodic_sleep_caps_at_one_hour_witness :
    (14400 : ℚ) ≤ 86400
    ∧ (periodic_loop_sleep 86400 false = 3600
        ∧ periodic_loop_sleep 86400 false = min (86400 / 4) 3600) :=
  ⟨by norm_num, periodic_sleep_caps_at_one_hour 86400 (by norm_num)⟩

/-- C7: the claim states every ActiveMount created by activation stores the
discovered tools, resources and prompts and that all three can be read back.
The pydantic model declares only a tools field: constructing the mount the
way registry_add does yields the same record whatever resources and prompts
are passed, and attribute reads of resources or prompts — exactly what
registry_active performs — raise AttributeError. -/
theorem active_mount_drops_resources_prompts :
    (∀ (e n ns : String) (cid : Option String) (pid : Option Int)
        (env : Dict String) (tools r1 p1 r2 p2 : List String),
        mkActiveMount e n ns cid pid env tools r1 p1 =
          mkActiveMount e n ns cid pid env tools r2 p2)
    ∧ (∀ m : ActiveMount,
        activeMountAttr m "resources" = .error "AttributeError: resources")
    ∧ (∀ m : ActiveMount,
        activeMountAttr m "prompts" = .error "AttributeError: prompts")
    ∧ (∀ m : ActiveMount, activeMountAttr m "tools" = .ok m.tools) :=
  ⟨fun _ _ _ _ _ _ _ _ _ _ _ => rfl, fun _ => rfl, fun _ => rfl, fun _ => rfl⟩

/-- Two refresh batch entries sharing the id docker/sqlite. -/
def sqliteEntryA : RegistryEntry :=
  { id := "docker/sqlite", name := "SQLite (first)", description := "first batch copy",
    source := .docker, container_image := some "docker.io/mcp/sqlite",
    launch_method := .podman }

def sqliteEntryB : RegistryEntry :=
  { id := "docker/sqlite", name := "SQLite (second)", description := "second batch copy",
    source := .docker, container_image := some "docker.io/mcp/sqlite",
    launch_method := .podman }

/-- C10: bulk_add_entries upserts last-wins per id and returns the length of
the input list, duplicates included; a successful refresh records that
return value as the source's entry_count, so with a duplicated id the count
(2 below) exceeds the single entry actually stored. -/
theorem bulk_add_last_wins_count (entries : List RegistryEntry)
    (store : Dict RegistryEntry) :
    (bulk_add_entries entries store).1 = entries.length
    ∧ (∀ i, dictGet (bulk_add_entries entries store).2 i =
        match lastWithId entries i with
        | some e => some e
        | none => dictGet store i)
    ∧ (∀ now src,
        (refresh_source_step now src (.ok entries) store).1.entry_count = entries.length)
    ∧ (bulk_add_entries [sqliteEntryA, sqliteEntryB] []).1 = 2
    ∧ (bulk_add_entries [sqliteEntryA, sqliteEntryB] []).2 =
        [("docker/sqlite", sqliteEntryB)] := by
  refine ⟨rfl, ?_, fun _ _ => rfl, rfl, by decide⟩
  intro i
  exact dictGet_foldl_set_by_id entries store i

/-- C9: update_mount_environment merges the given variables into the
existing mount's environment — keys outside the update keep their previous
values, updated keys take the new values, no key is ever removed — leaves
every other field of the mount and every other mount untouched, and returns
None without change when the entry has no active mount. -/
theorem update_mount_environment_merges (tbl : MountTable) (entry_id : String)
    (environment : Dict String) (hnd : (dictKeys environment).Nodup) :
    (dictGet tbl entry_id = none →
        update_mount_environment tbl entry_id environment = (none, tbl))
    ∧ (∀ m, dictGet tbl entry_id = some m →
        ∃ m', update_mount_environment tbl entry_id environment
            = (some m', dictSet tbl entry_id m')
          ∧ m'.entry_id = m.entry_id ∧ m'.name = m.name ∧ m'.nsp = m.nsp
          ∧ m'.container_id = m.container_id ∧ m'.pid = m.pid ∧ m'.tools = m.tools
          ∧ (∀ k, k ∉ dictKeys environment →
              dictGet m'.environment k = dictGet m.environment k)
          ∧ (∀ k, k ∈ dictKeys environment →
              dictGet m'.environment k = dictGet environment k)
          ∧ (∀ k v, dictGet m.environment k = some v →
              ∃ v', dictGet m'.environment k = some v')
          ∧ (∀ other, other ≠ entry_id →
              dictGet (dictSet tbl entry_id m') other = dictGet tbl other)) := by
  constructor
  · intro h
    simp [update_mount_environment, h]
  · intro m hm
    refine ⟨{ m with environment := dictUpdate m.environment environment }, ?_,
      rfl, rfl, rfl, rfl, rfl, rfl, ?_, ?_, ?_, ?_⟩
    · simp [update_mount_environment, hm]
    · intro k hk
      exact dictGet_dictUpdate_notMem _ _ _ hk
    · intro k hk
      exact dictGet_dictUpdate_mem _ _ _ hnd hk
    · intro k v hv
      by_cases hk : k ∈ dictKeys environment
      · rw [show dictGet ({ m with environment := dictUpdate m.environment environment } :
              ActiveMount).environment k = dictGet environment k from
            dictGet_dictUpdate_mem _ _ _ hnd hk]
        have := dictGet_isSome_of_mem_keys environment k hk
        cases henv : dictGet environment k with
        | none => rw [henv] at this; simp at this
        | some v' => exact ⟨v', rfl⟩
      · rw [show dictGet ({ m with environment := dictUpdate m.environment environment } :
              ActiveMount).environment k = dictGet m.environment k from
            dictGet_dictUpdate_notMem _ _ _ hk]
        exact ⟨v, hv⟩
    · intro other hother
      exact dictGet_dictSet_ne _ _ _ _ (Ne.symm hother)

/-- A configured mount used by the concrete witnesses below. -/
def mountX : ActiveMount :=
  { entry_id := "x", name := "Server X", nsp := "x", container_id := some "c0",
    environment := [("API_TOKEN", "t0")] }

def tblX : MountTable := [("x", mountX)]

/-- Witness for C9 at a one-mount table and the update API_KEY=secret123. -/
theorem update_mount_environment_merges_witness :
    (dictKeys [("API_KEY", "secret123")]).Nodup
    ∧ ((dictGet tblX "x" = none →
          update_mount_environment tblX "x" [("API_KEY", "secret123")] = (none, tblX))
      ∧ (∀ m, dictGet tblX "x" = some m →
          ∃ m', update_mount_environment tblX "x" [("API_KEY", "secret123")]
              = (some m', dictSet tblX "x" m')
            ∧ m'.entry_id = m.entry_id ∧ m'.name = m.name ∧ m'.nsp = m.nsp
            ∧ m'.container_id = m.container_id ∧ m'.pid = m.pid ∧ m'.tools = m.tools
            ∧ (∀ k, k ∉ dictKeys [("API_KEY", "secret123")] →
                dictGet m'.environment k = dictGet m.environment k)
            ∧ (∀ k, k ∈ dictKeys [("API_KEY", "secret123")] →
                dictGet m'.environment k = dictGet [("API_KEY", "secret123")] k)
            ∧ (∀ k v, dictGet m.environment k = some v →
                ∃ v', dictGet m'.environment k = some v')
            ∧ (∀ other, other ≠ "x" →
                dictGet (dictSet tblX "x" m') other = dictGet tblX other))) :=
  ⟨by decide, update_mount_environment_merges tblX "x" [("API_KEY", "secret123")] (by decide)⟩

/-- C4: given that entry_id has an active mount (without one the call fails
regardless of the keys), registry_config_set succeeds exactly when every
environment key passes the case-insensitive allowlist check of
ConfigSetRequest, and whenever some key fails — HOME, say — the result is
the validation error and the whole mount table, the mount's environment
included, is returned unchanged. -/
theorem config_set_allowlist (tbl : MountTable) (entry_id : String)
    (environment : Dict String) (m : ActiveMount)
    (hm : dictGet tbl entry_id = some m) :
    ((∃ name keys, (registry_config_set tbl entry_id environment).1 = .updated name keys)
      ↔ ∀ k ∈ dictKeys environment, envKeyAllowed k = true)
    ∧ ((∃ k ∈ dictKeys environment, envKeyAllowed k = false) →
        ∃ msg, registry_config_set tbl entry_id environment = (.invalidConfig msg, tbl)) := by
  cases hfind : environment.find? (fun kv => !envKeyAllowed kv.1) with
  | some kv =>
      have hbad : envKeyAllowed kv.1 = false := by
        have := List.find?_some hfind
        simpa using this
      have hmem : kv.1 ∈ dictKeys environment :=
        List.mem_map_of_mem _ (List.mem_of_find?_eq_some hfind)
      constructor
      · constructor
        · rintro ⟨name, keys, hres⟩
          simp [registry_config_set, validate_env_keys, hfind] at hres
        · intro hall
          exact absurd (hall kv.1 hmem) (by simp [hbad])
      · intro _
        exact ⟨"Environment variable " ++ kv.1 ++ " not in allowlist",
          by simp [registry_config_set, validate_env_keys, hfind]⟩
  | none =>
      have hall : ∀ k ∈ dictKeys environment, envKeyAllowed k = true := by
        intro k hk
        simp only [dictKeys, List.mem_map] at hk
        obtain ⟨kv, hkv, hfst⟩ := hk
        have := List.find?_eq_none.mp hfind kv hkv
        simp at this
        rw [← hfst]
        exact this
      constructor
      · constructor
        · intro _
          exact hall
        · intro _
          refine ⟨m.name, dictKeys environment, ?_⟩
          simp [registry_config_set, validate_env_keys, hfind,
            update_mount_environment, hm]
      · rintro ⟨k, hk, hbad⟩
        exact absurd (hall k hk) (by simp [hbad])

/-- Witness for C4: on the active mount x, setting HOME=/tmp is rejected
with the table unchanged, per the theorem applied at that input. -/
theorem config_set_allowlist_witness :
    dictGet tblX "x" = some mountX
    ∧ (((∃ name keys,
          (registry_config_set tblX "x" [("HOME", "/tmp")]).1 = .updated name keys)
        ↔ ∀ k ∈ dictKeys [("HOME", "/tmp")], envKeyAllowed k = true)
      ∧ ((∃ k ∈ dictKeys [("HOME", "/tmp")], envKeyAllowed k = false) →
          ∃ msg, registry_config_set tblX "x" [("HOME", "/tmp")]
            = (.invalidConfig msg, tblX))) :=
  ⟨by decide, config_set_allowlist tblX "x" [("HOME", "/tmp")] mountX (by decide)⟩

/-- Reading a key after a key-preserving value map. -/
theorem dictGet_map_withKey {α β : Type} (g : String → α → β) (d : Dict α) (k : String) :
    dictGet (d.map (fun kv => (kv.1, g kv.1 kv.2))) k = (dictGet d k).map (g k) := by
  induction d with
  | nil => rfl
  | cons kv rest ih =>
      by_cases hk : kv.1 = k
      · subst hk
        simp [dictGet]
      · simpa [dictGet, hk] using ih

/-- A key-preserving value map keeps the key list. -/
theorem dictKeys_map_withKey {α β : Type} (g : String → α → β) (d : Dict α) :
    dictKeys (d.map (fun kv => (kv.1, g kv.1 kv.2))) = dictKeys d := by
  induction d with
  | nil => rfl
  | cons kv rest ih => simpa [dictKeys] using ih

/-- Reading a key out of the defaults-only base payload: with unique keys,
a non-null raw default survives, a null one is skipped. -/
theorem dictGet_defaults_base (L : Dict JVal) (acc : Dict JVal) (k : String)
    (h : (dictKeys L).Nodup) :
    dictGet (L.foldl
        (fun a kv => if kv.2 ≠ JVal.nullV then dictSet a kv.1 kv.2 else a) acc) k =
      match dictGet L k with
      | some v => if v ≠ JVal.nullV then some v else dictGet acc k
      | none => dictGet acc k := by
  induction L generalizing acc with
  | nil => rfl
  | cons kv rest ih =>
      simp only [dictKeys, List.map_cons, List.nodup_cons] at h
      show dictGet (rest.foldl _
        (if kv.2 ≠ JVal.nullV then dictSet acc kv.1 kv.2 else acc)) k = _
      rw [ih _ h.2]
      by_cases hk : kv.1 = k
      · have hnone : dictGet rest k = none := by
          cases hrest : dictGet rest k with
          | none => rfl
          | some v =>
              have : (k, v) ∈ rest := dictGet_mem _ _ _ hrest
              exact absurd (hk ▸ List.mem_map_of_mem Prod.fst this) h.1
        rw [hnone]
        by_cases hv : kv.2 = JVal.nullV
        · simp [dictGet, hk, hv]
        · simp [dictGet, hk, hv, hk ▸ dictGet_dictSet_self acc kv.1 kv.2]
      · have hGet : dictGet (kv :: rest) k = dictGet rest k := by simp [dictGet, hk]
        rw [hGet]
        cases hrest : dictGet rest k with
        | some v =>
            by_cases hv : v = JVal.nullV
            · simp only [hv, ne_eq, not_true_eq_false, if_false, ite_false]
              by_cases hkv : kv.2 = JVal.nullV
              · simp [hkv]
              · simp [hkv, dictGet_dictSet_ne _ _ _ _ hk]
            · simp [hv]
        | none =>
            by_cases hkv : kv.2 = JVal.nullV
            · simp [hkv]
            · simp [hkv, dictGet_dictSet_ne _ _ _ _ hk]

/-- C5 (amended): in every generated dynamic tool call, a non-required
parameter with a non-null schema default that is absent from the call has
that default injected into the dispatched payload, while a non-required
parameter that is omitted and has no schema default — or whose schema
default is the JSON null that the generator treats as no default — is
absent from the dispatched payload; null is never injected. -/
theorem dynamic_tool_default_injection (schema : InputSchema) (kwargs : Dict JVal)
    (p : String) (ps : PropSchema)
    (hp : dictGet schema.properties p = some ps)
    (hnd : (dictKeys schema.properties).Nodup)
    (hreq : schema.required.contains p = false)
    (hk : p ∉ dictKeys kwargs) :
    dictGet (dynamic_tool_payload schema kwargs) p =
      match ps.defaultVal with
      | some v => if v = JVal.nullV then none else some v
      | none => none := by
  unfold dynamic_tool_payload
  rw [dictGet_dictUpdate_notMem _ _ _ hk]
  have hndraw : (dictKeys (raw_defaults schema)).Nodup := by
    rw [raw_defaults, dictKeys_map_withKey]
    exact hnd
  rw [dictGet_defaults_base _ _ _ hndraw]
  rw [raw_defaults]
  rw [dictGet_map_withKey (rawDefaultOf schema) schema.properties p]
  rw [hp]
  rw [show (some ps).map (rawDefaultOf schema p) = some (rawDefaultOf schema p ps) from rfl]
  unfold rawDefaultOf parse_schema_property
  rw [hreq]
  cases hdv : ps.defaultVal with
  | some v =>
      by_cases hv : v = JVal.nullV
      · simp [hv, dictGet]
      · simp [hv]
  | none => simp [dictGet]

/-- The inputSchema of the read_query tool in tests/test_schema_converter.py:
a required query string and an optional integer limit with default 100. -/
def readQuerySchema : InputSchema :=
  { properties :=
      [("query", { typeName := some (.tyStr "string"),
                   description := some "SQL query" }),
       ("limit", { typeName := some (.tyStr "integer"),
                   defaultVal := some (JVal.intV 100),
                   description := some "Row limit" })],
    required := ["query"] }

/-- Witness for the amended C5 statement: calling read_query with only the
required query injects limit=100 into the dispatched payload. -/
theorem dynamic_tool_default_injection_witness :
    dictGet readQuerySchema.properties "limit"
      = some { typeName := some (.tyStr "integer"),
               defaultVal := some (JVal.intV 100),
               description := some "Row limit" }
    ∧ dictGet (dynamic_tool_payload readQuerySchema
        [("query", JVal.strV "SELECT 1")]) "limit" = some (JVal.intV 100) := by
  refine ⟨by decide, ?_⟩
  have h := dynamic_tool_default_injection readQuerySchema
    [("query", JVal.strV "SELECT 1")] "limit"
    { typeName := some (.tyStr "integer"), defaultVal := some (JVal.intV 100),
      description := some "Row limit" }
    (by decide) (by decide) (by decide) (by decide)
  simpa using h

/-- A schema whose only property is non-required and carries an explicit
null default. -/
def nullDefaultSchema : InputSchema :=
  { properties := [("limit", { defaultVal := some JVal.nullV })], required := [] }

/-- C5 as claimed fails on a null schema default: the limit property has a
schema default and is absent from the call, yet the dispatched payload does
not contain it — the generator only injects defaults that are not None. -/
theorem dynamic_tool_null_default_cex :
    dictGet nullDefaultSchema.properties "limit"
      = some { defaultVal := some JVal.nullV }
    ∧ nullDefaultSchema.required.contains "limit" = false
    ∧ dynamic_tool_payload nullDefaultSchema [] = []
    ∧ dictGet (dynamic_tool_payload nullDefaultSchema []) "limit" ≠ some JVal.nullV := by
  refine ⟨by decide, by decide, by decide, by decide⟩

/-- A remote tool whose name contains a hyphen. -/
def hyphenToolDef : ToolDef :=
  { nameVal := some "read-query", descriptionVal := some "Execute a SELECT query" }

/-- C6 as claimed fails on hyphenated tool names: convert_tool_to_function
builds the fully-qualified name by plain concatenation, so the hyphen of
read-query survives in the registered name instead of becoming an
underscore. -/
theorem convert_tool_hyphen_cex :
    (convert_tool_to_function hyphenToolDef "sqlite").1 = "mcp_sqlite_read-query"
    ∧ (convert_tool_to_function hyphenToolDef "sqlite").1 ≠ "mcp_sqlite_read_query" := by
  refine ⟨by decide, by decide⟩

/-- C6 (amended): for every remote tool with name n converted under mount
namespace p, the fully-qualified name of the registered descriptor is
mcp_ + p + _ + n with n kept as-is (hyphens survive); the hyphens-to-
underscores mapping is applied only to the generated callable's function
name; and the original unmodified n is what the generated callable passes to
the executor for dispatch. -/
theorem convert_tool_name_retention (td : ToolDef) (ns n : String)
    (h : td.nameVal = some n) :
    (convert_tool_to_function td ns).1 = "mcp_" ++ ns ++ "_" ++ n
    ∧ (convert_tool_to_function td ns).2.dispatchName = n
    ∧ (convert_tool_to_function td ns).2.funcName = pyReplaceChar n '-' '_' := by
  unfold convert_tool_to_function create_dynamic_tool_function
  rw [h]
  exact ⟨rfl, rfl, rfl⟩

/-- Witness for the amended C6 statement on the hyphenated read-query tool. -/
theorem convert_tool_name_retention_witness :
    hyphenToolDef.nameVal = some "read-query"
    ∧ ((convert_tool_to_function hyphenToolDef "sqlite").1
        = "mcp_" ++ "sqlite" ++ "_" ++ "read-query"
      ∧ (convert_tool_to_function hyphenToolDef "sqlite").2.dispatchName = "read-query"
      ∧ (convert_tool_to_function hyphenToolDef "sqlite").2.funcName
          = pyReplaceChar "read-query" '-' '_') :=
  ⟨rfl, convert_tool_name_retention hyphenToolDef "sqlite" "read-query" rfl⟩

theorem splitAux_ne_nil (sep : Char) (cs acc : List Char) : splitAux sep cs acc ≠ [] := by
  induction cs generalizing acc with
  | nil => simp [splitAux]
  | cons c cs ih =>
      by_cases h : c = sep
      · simp [splitAux, h]
      · simpa [splitAux, h] using ih (c :: acc)

theorem splitAux_no_sep (sep : Char) (xs acc : List Char) (h : ∀ c ∈ xs, c ≠ sep) :
    splitAux sep xs acc = [acc.reverse ++ xs] := by
  induction xs generalizing acc with
  | nil => simp [splitAux]
  | cons c cs ih =>
      have hc : c ≠ sep := h c (List.mem_cons_self c cs)
      rw [splitAux, if_neg hc, ih (c :: acc) (fun x hx => h x (List.mem_cons_of_mem c hx))]
      simp

theorem splitAux_before_sep (sep : Char) (xs ys acc : List Char) (h : ∀ c ∈ xs, c ≠ sep) :
    splitAux sep (xs ++ sep :: ys) acc = (acc.reverse ++ xs) :: splitAux sep ys [] := by
  induction xs generalizing acc with
  | nil => simp [splitAux]
  | cons c cs ih =>
      have hc : c ≠ sep := h c (List.mem_cons_self c cs)
      rw [List.cons_append, splitAux, if_neg hc,
        ih _ (fun x hx => h x (List.mem_cons_of_mem c hx))]
      simp

theorem join_splitAux (cs acc : List Char) :
    joinWith "_" ((splitAux '_' cs acc).map String.mk) = String.mk (acc.reverse ++ cs) := by
  induction cs generalizing acc with
  | nil => simp [splitAux, joinWith]
  | cons c cs ih =>
      by_cases h : c = '_'
      · subst h
        rw [show splitAux '_' ('_' :: cs) acc = acc.reverse :: splitAux '_' cs [] from by
          rw [splitAux, if_pos rfl]]
        obtain ⟨x, xs, hxs⟩ : ∃ x xs, splitAux '_' cs [] = x :: xs := by
          cases hs : splitAux '_' cs [] with
          | nil => exact absurd hs (splitAux_ne_nil _ _ _)
          | cons x xs => exact ⟨x, xs, rfl⟩
        have hjoin : joinWith "_" ((acc.reverse :: splitAux '_' cs []).map String.mk)
            = String.mk acc.reverse ++ "_"
                ++ joinWith "_" ((splitAux '_' cs []).map String.mk) := by
          rw [hxs]
          rfl
        rw [hjoin, ih []]
        rw [show String.mk acc.reverse ++ "_" ++ String.mk (([] : List Char).reverse ++ cs)
            = String.mk ((acc.reverse ++ ['_']) ++ (([] : List Char).reverse ++ cs)) from rfl]
        congr 1
        simp
      · rw [show splitAux '_' (c :: cs) acc = splitAux '_' cs (c :: acc) from by
          rw [splitAux, if_neg h]]
        rw [ih (c :: acc)]
        congr 1
        simp

theorem joinWith_pySplit (t : String) : joinWith "_" (pySplit t '_') = t := by
  unfold pySplit
  rw [join_splitAux]
  simp

theorem pySplit_ne_nil (t : String) : pySplit t '_' ≠ [] := by
  unfold pySplit
  intro hemp
  exact splitAux_ne_nil '_' t.data [] (List.map_eq_nil_iff.mp hemp)

theorem isPrefixOf_append_self (l r : List Char) : l.isPrefixOf (l ++ r) = true := by
  induction l with
  | nil => cases r <;> rfl
  | cons c cs ih => simpa [List.isPrefixOf] using ih

/-- Splitting the fully-qualified name built from an underscore-free
namespace recovers the namespace as part 1 and the tool name's own parts
after it. -/
theorem pySplit_mcp_decomp (p t : String)
    (hpu : p.data.all (fun c => c ≠ '_') = true) :
    pySplit ("mcp_" ++ p ++ "_" ++ t) '_' = "mcp" :: p :: pySplit t '_' := by
  unfold pySplit
  have hd : ("mcp_" ++ p ++ "_" ++ t).data
      = ['m', 'c', 'p'] ++ '_' :: (p.data ++ '_' :: t.data) := by
    simp [String.data_append]
  rw [hd]
  rw [splitAux_before_sep '_' ['m', 'c', 'p'] _ [] (by decide)]
  rw [splitAux_before_sep '_' p.data _ []
    (fun c hc => by simpa using List.all_eq_true.mp hpu c hc)]
  simp

/-- C2 (amended): for every active mount whose namespace p matches
[A-Za-z_][A-Za-z0-9_]* and additionally contains no underscore, dispatching
the fully-qualified name mcp_ + p + _ + t through registry_exec invokes
call_tool(t, args) on the client registered for that mount's container id,
exactly once, and returns the stringified result (or the stringified error);
and any accepted name whose parsed namespace — the single part after mcp_ —
matches no active mount yields an error result with no client invoked. The
claim as frozen fails for namespaces containing an underscore, because the
parser takes only the first underscore-separated part as the namespace. -/
theorem registry_exec_dispatch (env : ExecEnv) (tbl : MountTable)
    (p t : String) (args : Dict JVal) (m : ActiveMount) (cid : String)
    (client : RpcClient)
    (hpat : matchesNamespacePattern p = true)
    (hpu : p.data.all (fun c => c ≠ '_') = true)
    (hm : (tbl.map Prod.snd).find? (fun m' => m'.nsp = p) = some m)
    (hcid : m.container_id = some cid)
    (hclient : dictGet env.clients cid = some client) :
    registry_exec env tbl ("mcp_" ++ p ++ "_" ++ t) args =
      (match client.callTool t args with
       | .ok r => (.success ("mcp_" ++ p ++ "_" ++ t) r, [(cid, t, args)])
       | .error e => (.failed ("mcp_" ++ p ++ "_" ++ t) e, [(cid, t, args)]))
    ∧ (∀ name, strStartsWith name "mcp_" = true →
        ¬ (pySplit name '_').length < 3 →
        (tbl.map Prod.snd).find? (fun m' => m'.nsp = (pySplit name '_').getD 1 "") = none →
        registry_exec env tbl name args
          = (.noMountForNs ((pySplit name '_').getD 1 ""), [])) := by
  constructor
  · have hsw : strStartsWith ("mcp_" ++ p ++ "_" ++ t) "mcp_" = true := by
      unfold strStartsWith
      rw [show ("mcp_" ++ p ++ "_" ++ t).data
          = ("mcp_" : String).data ++ (p.data ++ '_' :: t.data) from by
        simp [String.data_append]]
      exact isPrefixOf_append_self _ _
    have hsplit := pySplit_mcp_decomp p t hpu
    have hlen : ¬ (pySplit ("mcp_" ++ p ++ "_" ++ t) '_').length < 3 := by
      rw [hsplit]
      cases hrest : pySplit t '_' with
      | nil => exact absurd hrest (pySplit_ne_nil t)
      | cons x xs => simp
    unfold registry_exec
    rw [hsw]
    simp only [Bool.true_eq_false, if_false]
    rw [if_neg hlen]
    rw [show (pySplit ("mcp_" ++ p ++ "_" ++ t) '_').getD 1 "" = p from by
      rw [hsplit]; rfl]
    rw [show joinWith "_" ((pySplit ("mcp_" ++ p ++ "_" ++ t) '_').drop 2) = t from by
      rw [hsplit]; exact joinWith_pySplit t]
    rw [hm]
    have hbind : m.container_id.bind
        (fun c => (dictGet env.clients c).map (fun cl => (c, cl))) = some (cid, client) := by
      rw [hcid]
      show (dictGet env.clients cid).map (fun cl => (cid, cl)) = some (cid, client)
      rw [hclient]
      rfl
    show (match m.container_id.bind
        (fun c => (dictGet env.clients c).map (fun cl => (c, cl))) with
      | none => (ExecResult.clientMissing m.name, ([] : List CallRecord))
      | some (cid, client) =>
          match client.callTool t args with
          | .ok r => (ExecResult.success ("mcp_" ++ p ++ "_" ++ t) r, [(cid, t, args)])
          | .error e => (ExecResult.failed ("mcp_" ++ p ++ "_" ++ t) e, [(cid, t, args)]))
      = _
    rw [hbind]
  · intro name h1 h2 h3
    unfold registry_exec
    rw [h1]
    simp only [Bool.true_eq_false, if_false]
    rw [if_neg h2, h3]

/-- A mount whose namespace is underscore-free, with a live client under
container id c1. -/
def mountSqlite : ActiveMount :=
  { entry_id := "docker/sqlite", name := "SQLite", nsp := "sqlite",
    container_id := some "c1" }

def tblSqlite : MountTable := [("docker/sqlite", mountSqlite)]

def clientStub : RpcClient :=
  { callTool := fun n _ => .ok ("content of " ++ n) }

def envSqlite : ExecEnv := { clients := [("c1", clientStub)] }

/-- Witness for the amended C2 statement: dispatching
mcp_sqlite_list_tables invokes call_tool(list_tables, args) on the mount's
client and returns the stringified result. -/
theorem registry_exec_dispatch_witness :
    matchesNamespacePattern "sqlite" = true
    ∧ ("sqlite" : String).data.all (fun c => c ≠ '_') = true
    ∧ (registry_exec envSqlite tblSqlite ("mcp_" ++ "sqlite" ++ "_" ++ "list_tables") []
        = (match clientStub.callTool "list_tables" [] with
           | .ok r => (.success ("mcp_" ++ "sqlite" ++ "_" ++ "list_tables") r,
               [("c1", "list_tables", [])])
           | .error e => (.failed ("mcp_" ++ "sqlite" ++ "_" ++ "list_tables") e,
               [("c1", "list_tables", [])]))
      ∧ (∀ name, strStartsWith name "mcp_" = true →
          ¬ (pySplit name '_').length < 3 →
          (tblSqlite.map Prod.snd).find?
            (fun m' => m'.nsp = (pySplit name '_').getD 1 "") = none →
          registry_exec envSqlite tblSqlite name []
            = (.noMountForNs ((pySplit name '_').getD 1 ""), []))) :=
  ⟨by decide, by decide,
    registry_exec_dispatch envSqlite tblSqlite "sqlite" "list_tables" [] mountSqlite
      "c1" clientStub (by decide) (by decide) (by simp [tblSqlite, mountSqlite])
      rfl (by simp [envSqlite, dictGet])⟩

/-- A mount whose namespace a_b matches the spec's namespace pattern but
contains an underscore, with its client registered. -/
def mountAB : ActiveMount :=
  { entry_id := "e1", name := "Service AB", nsp := "a_b", container_id := some "c9" }

def tblAB : MountTable := [("e1", mountAB)]

def envAB : ExecEnv := { clients := [("c9", clientStub)] }

/-- C2 as frozen fails at namespace a_b: the namespace matches
[A-Za-z_][A-Za-z0-9_]*, its mount is active and its client registered, yet
dispatching the fully-qualified name of its tool c performs no call_tool
invocation at all — the parser reads the namespace as a and finds no such
mount. -/
theorem registry_exec_underscore_cex :
    matchesNamespacePattern "a_b" = true
    ∧ "mcp_a_b_c" = "mcp_" ++ "a_b" ++ "_" ++ "c"
    ∧ (registry_exec envAB tblAB "mcp_a_b_c" []).2 = []
    ∧ (registry_exec envAB tblAB "mcp_a_b_c" []).1 = .noMountForNs "a" := by
  refine ⟨by decide, by decide, by decide, by decide⟩

/-- C8: a second registry_add for an entry_id that already has an
ActiveMount returns the already-active result as the very first check,
before any pull or spawn, with the mount table unchanged and zero child
processes spawned; consequently a successful activation followed by a second
activation of the same entry performs exactly one spawn in total, whatever
the second call's collaborators would have done. -/
theorem registry_add_idempotent (env env' : ActivationEnv)
    (entries : Dict RegistryEntry) (tbl : MountTable) (entry_id : String)
    (nsArg : Option String)
    (hc : ∀ kv ∈ entries, (kv.2).id = kv.1) :
    (∀ m, dictGet tbl entry_id = some m →
        registry_add env entries tbl entry_id nsArg = (.alreadyActive m.name m.nsp, tbl, 0))
    ∧ (∀ r tbl1 n1, registry_add env entries tbl entry_id nsArg = (r, tbl1, n1) →
        r.isActivated = true →
        n1 = 1 ∧ ∃ m, dictGet tbl1 entry_id = some m
          ∧ registry_add env' entries tbl1 entry_id nsArg
              = (.alreadyActive m.name m.nsp, tbl1, 0)) := by
  constructor
  · intro m hm
    unfold registry_add
    rw [hm]
  · intro r tbl1 n1 heq hact
    have hback : ∀ m, dictGet tbl1 entry_id = some m →
        registry_add env' entries tbl1 entry_id nsArg
          = (.alreadyActive m.name m.nsp, tbl1, 0) := by
      intro m hm
      unfold registry_add
      rw [hm]
    unfold registry_add at heq
    cases h1 : dictGet tbl entry_id with
    | some m =>
        rw [h1] at heq
        cases heq
        simp [AddResult.isActivated] at hact
    | none =>
        rw [h1] at heq
        cases h2 : dictGet entries entry_id with
        | none =>
            rw [h2] at heq
            cases heq
            simp [AddResult.isActivated] at hact
        | some entry =>
            rw [h2] at heq
            dsimp only at heq
            have hid : entry.id = entry_id := hc _ (dictGet_mem _ _ _ h2)
            cases hlm : entry.launch_method with
            | podman =>
                cases hci : entry.container_image with
                | none =>
                    rw [hlm, hci] at heq
                    cases heq
                    simp [AddResult.isActivated] at hact
                | some img =>
                    rw [hlm, hci] at heq
                    dsimp only at heq
                    by_cases himg : img = ""
                    · rw [if_pos himg] at heq
                      cases heq
                      simp [AddResult.isActivated] at hact
                    · rw [if_neg himg] at heq
                      by_cases hpull : env.pullOk = false
                      · rw [if_pos hpull] at heq
                        cases heq
                        simp [AddResult.isActivated] at hact
                      · rw [if_neg hpull] at heq
                        cases hrun : env.runResult with
                        | none =>
                            rw [hrun] at heq
                            cases heq
                            simp [AddResult.isActivated] at hact
                        | some cid =>
                            rw [hrun] at heq
                            dsimp only at heq
                            by_cases hhs : env.handshakeOk = false
                            · rw [if_pos hhs] at heq
                              cases heq
                              simp [AddResult.isActivated] at hact
                            · rw [if_neg hhs] at heq
                              cases heq
                              exact ⟨rfl, _,
                                dictGet_dictSet_self_of_eq tbl entry.id entry_id _ hid,
                                hback _ (dictGet_dictSet_self_of_eq tbl entry.id entry_id _ hid)⟩
            | stdioProxy =>
                rw [hlm] at heq
                cases heq
                simp [AddResult.isActivated] at hact
            | remoteHttp =>
                rw [hlm] at heq
                cases heq
                simp [AddResult.isActivated] at hact
            | unknown =>
                rw [hlm] at heq
                cases heq
                simp [AddResult.isActivated] at hact

/-- The catalog entry used by the C8 witness. -/
def sqliteCatalogEntry : RegistryEntry :=
  { id := "docker/sqlite", name := "SQLite", description := "SQLite MCP server",
    source := .docker, container_image := some "docker.io/mcp/sqlite",
    launch_method := .podman }

def entriesSqlite : Dict RegistryEntry := [("docker/sqlite", sqliteCatalogEntry)]

/-- Collaborator oracles for a fully successful first activation. -/
def envActivateOk : ActivationEnv :=
  { pullOk := true, runResult := some "c1", handshakeOk := true,
    toolDefs := [{ nameVal := some "list_tables" }],
    resourceUris := ["sqlite://main"], promptNames := ["describe_db"] }

/-- Witness for C8 at a concrete successful activation of docker/sqlite
followed by a second registry_add for the same entry. -/
theorem registry_add_idempotent_witness :
    (∀ kv ∈ entriesSqlite, (kv.2).id = kv.1)
    ∧ ((∀ m, dictGet ([] : MountTable) "docker/sqlite" = some m →
          registry_add envActivateOk entriesSqlite [] "docker/sqlite" (some "sqlite")
            = (.alreadyActive m.name m.nsp, [], 0))
      ∧ (∀ r tbl1 n1,
          registry_add envActivateOk entriesSqlite [] "docker/sqlite" (some "sqlite")
            = (r, tbl1, n1) →
          r.isActivated = true →
          n1 = 1 ∧ ∃ m, dictGet tbl1 "docker/sqlite" = some m
            ∧ registry_add envActivateOk entriesSqlite tbl1 "docker/sqlite" (some "sqlite")
                = (.alreadyActive m.name m.nsp, tbl1, 0))) :=
  ⟨by decide,
    registry_add_idempotent envActivateOk envActivateOk entriesSqlite [] "docker/sqlite"
      (some "sqlite") (by decide)⟩

end MCPRegistry
